import Mathlib

/-!
Verification development for the scrollytelling visualization project
(`js/heatmap.js`, `js/waffleChart.js`, `js/stackedBarChart.js`,
`js/wordPerformanceChart.js`, `js/cellconfig.js`, `js/main.js`,
`js/scroller.js`, `js/imagecell.js`).

The JavaScript source is shallowly embedded: each chart module becomes a
collection of pure Lean functions over the tabular review dataset, DOM
side effects become explicit lists of rendered elements or counters of
document resources, and JavaScript runtime errors (temporal-dead-zone
reference errors, reading a property of an undefined value) become
explicit `JsError` values.  JavaScript `Map` objects are modelled as
association lists that preserve insertion order, `Array.prototype.sort`
as a stable comparator sort, and review timestamps (spreadsheet day
serials converted to millisecond epochs) as integers.
-/

namespace VisProj

/-- One row of the review dataset (`data.csv` after parsing): a single
flashcard-review event.  Fields follow the column names the charts read:
`jpn` (the word, the unique key), `eng` (translation), `partOS`
(part-of-speech code), `category` (category code), `reviewDate`
(spreadsheet day serial), `reviewTime` (elapsed seconds), `score`
(`"good"` or `"bad"`), `agree` (`"yes"` or `"no"`). -/
structure ReviewRecord where
  jpn : String
  eng : String
  partOS : String
  category : String
  reviewDate : Int
  reviewTime : Int
  score : String
  agree : String
deriving Repr, DecidableEq

/-- JavaScript runtime errors the embedded code can raise. -/
inductive JsError where
  | referenceError
  | typeError
deriving Repr, DecidableEq

/-- Millisecond epoch of a spreadsheet day serial: the charts compute
`new Date((d.reviewDate - 25569) * 86400 * 1000)`. -/
def msOfSerial (serial : Int) : Int := (serial - 25569) * 86400 * 1000

/-- Calendar-day key of a millisecond timestamp, modelling the grouping the
heatmap performs with `d3.timeFormat` over `%Y-%m-%d`: two timestamps get
the same key exactly when they fall on the same day.  Dataset timestamps
are non-negative, so integer division by the milliseconds in a day
realizes that grouping. -/
def dayKey (ms : Int) : Int := ms / 86400000

/-- Hour-of-day of a millisecond timestamp, modelling `date.getHours()`
(with UTC standing in for the local timezone; every claim below is
timezone-independent). -/
def hourOf (ms : Int) : Nat := ((ms % 86400000) / 3600000).toNat

/-- Insertion step of the stable comparator sort `sortWith`. -/
def insertSorted {α : Type} (le : α → α → Bool) (x : α) : List α → List α
  | [] => [x]
  | y :: ys => if le x y then x :: y :: ys else y :: insertSorted le x ys

/-- Stable comparator sort modelling `Array.prototype.sort(cmp)`: `le x y`
means the comparator orders `x` no later than `y`.  Insertion sort keeps
elements the comparator ties in their original order, matching the
stability the JavaScript specification guarantees. -/
def sortWith {α : Type} (le : α → α → Bool) : List α → List α
  | [] => []
  | x :: xs => insertSorted le x (sortWith le xs)

/-- JavaScript `Math.round`: floor of the value plus one half. -/
def jsRound (q : ℚ) : ℤ := ⌊q + 1 / 2⌋

/-! ## Viewport Tracker (`js/scroller.js`)

A narrative step section is modelled by its `getBoundingClientRect` data in
viewport coordinates; the `position()` handler walks the sections in
document order, fires the `active` dispatch for a section in the middle
band whose index differs from `currentIndex`, and records the new index. -/

/-- Bounding-box data of one `.step` section in viewport coordinates. -/
structure StepSection where
  top : ℚ
  height : ℚ
deriving Repr, DecidableEq

/-- Midpoint of a section: `rect.top + rect.height / 2`. -/
def midPoint (s : StepSection) : ℚ := s.top + s.height / 2

/-- Band test of `position()` (scroller lines 883): the midpoint is compared
strictly against `vh * 0.25` and `vh * 0.75`. -/
def qualifies (vh : ℚ) (s : StepSection) : Bool :=
  decide (midPoint s > vh * (25 / 100)) && decide (midPoint s < vh * (75 / 100))

/-- One `position()` pass over the enumerated sections, carrying
`currentIndex` and accumulating the list of fired `active` indices in
order.  A section fires only when it qualifies and its index differs from
the recorded index, which is then updated. -/
def passRun (vh : ℚ) : Int → List (Int × StepSection) → Int × List Int
  | cur, [] => (cur, [])
  | cur, (i, s) :: rest =>
    if qualifies vh s then
      if cur ≠ i then
        let r := passRun vh i rest
        (r.1, i :: r.2)
      else passRun vh cur rest
    else passRun vh cur rest

/-- Sections paired with their document-order indices. -/
def enumInt (secs : List StepSection) : List (Int × StepSection) :=
  secs.enum.map (fun p => ((p.1 : Int), p.2))

/-- One scroll evaluation pass: `position()` over the sections. -/
def positionPass (vh : ℚ) (secs : List StepSection) (cur : Int) : Int × List Int :=
  passRun vh cur (enumInt secs)

/-- Indices of the sections that satisfy the band test on a pass. -/
def qualifierIdxs (vh : ℚ) (secs : List StepSection) : List Int :=
  ((enumInt secs).filter (fun p => qualifies vh p.2)).map (fun p => p.1)

/-- The dedup-by-index-change logic of `position()` abstracted over the
qualifying-index sequence. -/
def stepFold : Int → List Int → Int × List Int
  | cur, [] => (cur, [])
  | cur, i :: rest =>
    if cur ≠ i then
      let r := stepFold i rest
      (r.1, i :: r.2)
    else stepFold cur rest

/-- A sequence of scroll evaluation passes, threading `currentIndex` and
concatenating the fired notifications. -/
def runScroll (vh : ℚ) (init : Int) : List (List StepSection) → Int × List Int
  | [] => (init, [])
  | p :: ps =>
    let r := positionPass vh p init
    let r2 := runScroll vh r.1 ps
    (r2.1, r.2 ++ r2.2)

/-- Boolean test that a trace never repeats the running index: `prev` is the
recorded index before the first entry. -/
def distinctRun : Int → List Int → Bool
  | _, [] => true
  | prev, i :: rest => decide (prev ≠ i) && distinctRun i rest

/-- Declarative de-duplication of a qualifying-index trace: starting from
the recorded index `prev`, keep exactly the entries that differ from the
running index (one notification per distinct transition) and drop every
entry equal to it (an already-active step qualifying again). -/
def destutterFrom : Int → List Int → List Int
  | _, [] => []
  | prev, i :: rest =>
    if prev ≠ i then i :: destutterFrom i rest else destutterFrom prev rest

/-- Following the claim wording for C7: a step is active iff its midpoint
lies in the closed interval between 25 percent and 75 percent of viewport
height, endpoints included. -/
def specActiveClosed (vh : ℚ) (s : StepSection) : Prop :=
  vh * (25 / 100) ≤ midPoint s ∧ midPoint s ≤ vh * (75 / 100)

/-! ## Word-performance chart data pipeline (`js/wordPerformanceChart.js`)

`processData` accumulates per-word statistics in a `Map` (insertion order
preserved), skipping records whose category is not selected, then maps the
statistics to aggregates and sorts them by success rate descending. -/

/-- Entry of the `wordStats` map: the fields stored when a word is first
seen plus its running good and bad review counters. -/
structure WordStat where
  jpn : String
  eng : String
  partOS : String
  category : String
  goodReviews : Nat
  badReviews : Nat
  firstReview : Int
deriving Repr, DecidableEq

/-- The zero-count entry created when a word key is first seen. -/
def newStat (d : ReviewRecord) : WordStat :=
  { jpn := d.jpn, eng := d.eng, partOS := d.partOS, category := d.category
    goodReviews := 0, badReviews := 0, firstReview := msOfSerial d.reviewDate }

/-- `d.score === "good" ? stat.goodReviews++ : stat.badReviews++`. -/
def bumpStat (st : WordStat) (score : String) : WordStat :=
  if score = "good" then { st with goodReviews := st.goodReviews + 1 }
  else { st with badReviews := st.badReviews + 1 }

/-- Processing one record into the insertion-ordered statistics list: an
existing entry for the word is bumped in place, a missing one is created
(appended, as a fresh `Map` key is) and immediately bumped. -/
def insertReview : List WordStat → ReviewRecord → List WordStat
  | [], d => [bumpStat (newStat d) d.score]
  | s :: rest, d =>
    if s.jpn = d.jpn then bumpStat s d.score :: rest
    else s :: insertReview rest d

/-- The statistics map after the `data.forEach` loop of `processData`, for
the active category filter `cats` (`selectedCategories`). -/
def processStats (cats : List String) (data : List ReviewRecord) : List WordStat :=
  data.foldl (fun acc d => if d.category ∈ cats then insertReview acc d else acc) []

/-- One aggregate produced by `processData`: the word statistics plus the
derived total.  The success rate is the derived quantity
`goodReviews / (goodReviews + badReviews) * 100`; see
`WordAggregate.successRate`. -/
structure WordAggregate where
  jpn : String
  eng : String
  partOS : String
  category : String
  goodReviews : Nat
  badReviews : Nat
  firstReview : Int
  totalReviews : Nat
deriving Repr, DecidableEq

/-- The success rate of an aggregate, as `processData` computes it:
`(stat.goodReviews / (stat.goodReviews + stat.badReviews)) * 100`. -/
def WordAggregate.successRate (a : WordAggregate) : ℚ :=
  (a.goodReviews : ℚ) / ((a.goodReviews : ℚ) + (a.badReviews : ℚ)) * 100

/-- The aggregate built from one statistics entry. -/
def mkAggregate (s : WordStat) : WordAggregate :=
  { jpn := s.jpn, eng := s.eng, partOS := s.partOS, category := s.category
    goodReviews := s.goodReviews, badReviews := s.badReviews
    firstReview := s.firstReview, totalReviews := s.goodReviews + s.badReviews }

/-- `processData`: aggregates of the filtered statistics, sorted by success
rate descending (`(a, b) => b.successRate - a.successRate`). -/
def processData (cats : List String) (data : List ReviewRecord) : List WordAggregate :=
  sortWith (fun a b => decide (b.successRate ≤ a.successRate))
    ((processStats cats data).map mkAggregate)

/-! ## Drill-down detail view (`js/heatmap.js`)

`renderWordPerformance(selectedDate, viewType)` filters the reviews of the day,
fixes the hour range, draws the x axis, and branches on the view mode.  In
the two count-based modes the block-scoped constant holding the bar colors
is initialized from its own not-yet-initialized binding, which shadows the
imported palette throughout the block, so evaluating the initializer
raises a ReferenceError (temporal dead zone) after the y axis and before
any bar.  Rendered output is the list of created elements plus the error,
if one was raised. -/

/-- The imported palette object `colors.pos` from `js/cellconfig.js`. -/
structure PosPalette where
  noun : String
  verb : String
  adj : String
  adv : String
  verbialNoun : String
  phrase : String
deriving Repr, DecidableEq

/-- The palette values of `js/cellconfig.js`. -/
def importedPosColors : PosPalette :=
  { noun := "#4e79a7", verb := "#e15759", adj := "#f28e2c", adv := "#59a14f"
    verbialNoun := "#76b7b2", phrase := "#edc949" }

/-- The object the count-based branch tries to build: bar colors keyed by
subgroup. -/
structure ModeColors where
  good : String
  bad : String
  yes : String
  no : String
deriving Repr, DecidableEq

/-- Evaluation of the initializer of the block-scoped constant at
`js/heatmap.js` lines 415-420.  The declaration shadows the imported
palette throughout its block, so each field initializer reads the local
binding while it is still uninitialized (its temporal dead zone, modelled
as `none`) rather than `importedPosColors`; JavaScript raises a
ReferenceError there. -/
def renderModeColors : Except JsError ModeColors :=
  match (none : Option PosPalette) with
  | some c => Except.ok { good := c.verb, bad := c.noun, yes := c.verb, no := c.noun }
  | none => Except.error JsError.referenceError

/-- One element of the `wordReviews` array of the heatmap. -/
structure WordReview where
  word : String
  english : String
  dateMs : Int
  score : String
  reviewTime : Int
  partOS : String
  category : String
  agree : String
deriving Repr, DecidableEq

/-- The `wordReviews` array the heatmap builds from the raw data. -/
def wordReviewsOf (data : List ReviewRecord) : List WordReview :=
  data.map (fun d =>
    { word := d.jpn, english := d.eng, dateMs := msOfSerial d.reviewDate
      score := d.score, reviewTime := d.reviewTime, partOS := d.partOS
      category := d.category, agree := d.agree })

/-- The per-day review count of the `reviewsByDate` map of the heatmap at one
day key: every record of that day contributes one. -/
def reviewCountOn (data : List ReviewRecord) (dk : Int) : Nat :=
  (data.filter (fun d => decide (dayKey (msOfSerial d.reviewDate) = dk))).length

/-- Insertion step for `d3.group(dayWords, d => d.date.getHours())`: keys
keep first-encounter order, group members keep data order. -/
def insertHourGroup (gs : List (Nat × List WordReview)) (w : WordReview) :
    List (Nat × List WordReview) :=
  match gs with
  | [] => [(hourOf w.dateMs, [w])]
  | g :: rest =>
    if g.1 = hourOf w.dateMs then (g.1, g.2 ++ [w]) :: rest
    else g :: insertHourGroup rest w

/-- The `hourlyGroups` value: the reviews of the day grouped by hour. -/
def hourlyGroupsOf (dayWords : List WordReview) : List (Nat × List WordReview) :=
  dayWords.foldl insertHourGroup []

/-- Elements the detail view renders, with the data that identifies them. -/
inductive DetailElem where
  | xAxisLine
  | hourLabel (hour : Nat)
  | yAxisGroup
  | bar (hour : Nat) (key : String) (value : Nat) (fill : String)
  | legendBox (labels : List String) (fills : List String)
  | reviewPoint (word : String) (hour : Nat) (reviewTime : Int)
  | axisLabelX
  | axisLabelY
  | toggleButton
  | resetButton
deriving Repr, DecidableEq

/-- Whether a detail element is a bar of the grouped bar chart. -/
def DetailElem.isBar : DetailElem → Bool
  | .bar _ _ _ _ => true
  | _ => false

/-- The three detail view modes, in toggle-cycle order. -/
inductive ViewType where
  | goodbad
  | agreement
  | reviewtime
deriving Repr, DecidableEq

/-- Result of one `renderWordPerformance` call: the elements appended in
order, and the error that aborted the call, if any. -/
structure DetailOutcome where
  elems : List DetailElem
  error : Option JsError
deriving Repr, DecidableEq

/-- Subgroup membership tests of `getData` (score for the good and bad
keys, agreement for yes and no). -/
def keyFilter (key : String) (w : WordReview) : Bool :=
  if key = "good" then decide (w.score = "good")
  else if key = "bad" then decide (w.score = "bad")
  else if key = "yes" then decide (w.agree = "yes")
  else decide (w.agree = "no")

/-- Lookup `colors[d.key]` on the mode-colors object. -/
def modeColorFor (mc : ModeColors) (key : String) : String :=
  if key = "good" then mc.good else if key = "bad" then mc.bad
  else if key = "yes" then mc.yes else mc.no

/-- `renderWordPerformance(selectedDate, viewType)` of `js/heatmap.js`.
The reviews of the day are grouped by hour; the hour range is the full day for
count-based modes and the active range widened by one and clamped for the
scatter mode (in the source, `Math.min`/`Math.max` over an empty
`activeHours` list is modelled with default 0; the detail view is only
ever entered for days with at least one review).  The x-axis line, hour
labels and y axis are appended before the count-based branch evaluates its
shadowed color constant, so a ReferenceError there leaves exactly those
elements and no bars. -/
def renderWordPerformance (wr : List WordReview) (selectedDate : Int)
    (viewType : ViewType) : DetailOutcome :=
  let dayWords := wr.filter (fun w => decide (dayKey w.dateMs = selectedDate))
  let hourly := hourlyGroupsOf dayWords
  let activeHours := sortWith (fun a b => decide (a ≤ b)) (hourly.map (fun g => g.1))
  let hourRange : Nat × Nat :=
    match viewType with
    | ViewType.reviewtime =>
        (max 0 ((activeHours.head?.getD 0) - 1), min 23 ((activeHours.getLast?.getD 0) + 1))
    | _ => (0, 23)
  let hours := List.range' hourRange.1 (hourRange.2 + 1 - hourRange.1)
  let baseElems := DetailElem.xAxisLine :: hours.map DetailElem.hourLabel
  match viewType with
  | ViewType.reviewtime =>
    let wordsByHour := (hourly.map (fun g => g.2)).flatten
    let points := wordsByHour.map (fun w =>
      DetailElem.reviewPoint w.word (hourOf w.dateMs) w.reviewTime)
    { elems := baseElems
        ++ [DetailElem.legendBox ["Good Reviews", "Bad Reviews"]
              [importedPosColors.verb, importedPosColors.noun],
            DetailElem.yAxisGroup]
        ++ points
        ++ [DetailElem.axisLabelX, DetailElem.axisLabelY,
            DetailElem.toggleButton, DetailElem.resetButton]
      error := none }
  | _ =>
    let subgroups := if viewType = ViewType.goodbad then ["good", "bad"] else ["yes", "no"]
    let countsByHour := hours.map (fun h =>
      let hourData := (List.lookup h hourly).getD []
      (h, subgroups.map (fun k => (hourData.filter (keyFilter k)).length)))
    match renderModeColors with
    | Except.error e => { elems := baseElems ++ [DetailElem.yAxisGroup], error := some e }
    | Except.ok mc =>
      let bars := (countsByHour.map (fun hc =>
        (subgroups.zip hc.2).map (fun kv =>
          DetailElem.bar hc.1 kv.1 kv.2 (modeColorFor mc kv.1)))).flatten
      let labels := if viewType = ViewType.goodbad then ["Good", "Bad"] else ["Agreed", "Disagreed"]
      let legendFills := if viewType = ViewType.goodbad then [mc.good, mc.bad] else [mc.yes, mc.no]
      { elems := baseElems ++ [DetailElem.yAxisGroup] ++ bars
          ++ [DetailElem.legendBox labels legendFills, DetailElem.axisLabelX,
              DetailElem.axisLabelY, DetailElem.toggleButton, DetailElem.resetButton]
        error := none }

/-- The overview day-cell click handler (`js/heatmap.js` lines 290-294):
for a positive review count it transitions to the detail view, which
renders with the default `goodbad` mode. -/
def dayCellClick (wr : List WordReview) (reviewCount : Nat) (date : Int) :
    Option DetailOutcome :=
  if reviewCount > 0 then some (renderWordPerformance wr date ViewType.goodbad) else none

/-! ## Multi-Phase Morph Machine (`js/stackedBarChart.js`)

`createStackedBarChart` groups the data by part of speech, counts distinct
words per group, and sorts.  `Array.prototype.sort` mutates the array in
place and returns the same array object, so the descending sort on line
697 also reorders the binding assigned on line 689: after construction
both `posData` and `posDataDescending` denote the descending order.  The
machine then advances through the precomputed state list on each Next
click, disabling the button at the last state. -/

/-- One entry of `posData`: a part of speech with its distinct-word count. -/
structure PosCount where
  pos : String
  count : Nat
deriving Repr, DecidableEq

/-- Insertion step for `d3.group(rawData, d => d.partOS)`: keys keep
first-encounter order, group members keep data order. -/
def insertGroup (gs : List (String × List ReviewRecord)) (d : ReviewRecord) :
    List (String × List ReviewRecord) :=
  match gs with
  | [] => [(d.partOS, [d])]
  | g :: rest =>
    if g.1 = d.partOS then (g.1, g.2 ++ [d]) :: rest
    else g :: insertGroup rest d

/-- The data grouped by part of speech. -/
def groupByPos (data : List ReviewRecord) : List (String × List ReviewRecord) :=
  data.foldl insertGroup []

/-- One group mapped to its count entry: `new Set(items.map(d => d.jpn)).size`
is the number of distinct words in the group. -/
def mkPosCount (g : String × List ReviewRecord) : PosCount :=
  { pos := g.1, count := ((g.2.map (fun d => d.jpn)).dedup).length }

/-- The array as built on line 689: grouped counts sorted ascending by
count (`(a, b) => a.count - b.count`). -/
def posDataFirstSort (data : List ReviewRecord) : List PosCount :=
  sortWith (fun a b => decide (a.count ≤ b.count)) ((groupByPos data).map mkPosCount)

/-- The same array object after line 697 resorts it in place descending
(`(a, b) => b.count - a.count`): every later read of the `posData` binding
sees this order. -/
def posData (data : List ReviewRecord) : List PosCount :=
  sortWith (fun a b => decide (b.count ≤ a.count)) (posDataFirstSort data)

/-- `posDataDescending` aliases the same array object as `posData`. -/
def posDataDescending (data : List ReviewRecord) : List PosCount := posData data

/-- `posData.reduce((acc, curr) => acc + curr.count, 0)`. -/
def totalWordsOf (pd : List PosCount) : Nat := pd.foldl (fun acc c => acc + c.count) 0

/-- `Math.round(totalWords / posData.length)`. -/
def averageOf (pd : List PosCount) : ℤ :=
  jsRound ((totalWordsOf pd : ℚ) / (pd.length : ℚ))

/-- `posData.find(d => d.pos === "noun")`, mapped to its count: the source
reads `.count` directly, so a `none` here is the TypeError of claim C10. -/
def nounLookup (data : List ReviewRecord) : Option Nat :=
  ((posData data).find? (fun c => decide (c.pos = "noun"))).map (fun c => c.count)

/-- `nounCount` as a total function over an already-built `posData` (the
machine below is only constructed when the lookup succeeded; see C10). -/
def nounCountOf (pd : List PosCount) : Nat :=
  ((pd.find? (fun c => decide (c.pos = "noun"))).map (fun c => c.count)).getD 0

/-- `Math.round((nounCount / average) * 10) / 10`. -/
def timesHigherOf (pd : List PosCount) : ℚ :=
  (jsRound ((nounCountOf pd : ℚ) / (averageOf pd : ℚ) * 10) : ℚ) / 10

/-- The percentage a segment state announces: the source subtracts one
percentage point for the noun segment as display compensation. -/
def segPct (pd : List PosCount) (c : PosCount) : ℚ :=
  if c.pos = "noun" then (c.count : ℚ) / (totalWordsOf pd : ℚ) * 100 - 1
  else (c.count : ℚ) / (totalWordsOf pd : ℚ) * 100

/-- A structured phase descriptor: the content of one entry of the
`states` array (its annotation text parameters, and for segment states the
part of speech revealed). -/
inductive StateDesc where
  | intro
  | totalIntro (totalWords : Nat)
  | segment (pos : String) (count : Nat) (displayPct : ℚ)
  | reorganize
  | compare (timesHigher : ℚ)
deriving Repr, DecidableEq

/-- The `states` array: intro, total bar, one segment state per `posData`
entry in array order, the reorganize state, and the comparison state. -/
def morphStates (pd : List PosCount) : List StateDesc :=
  [StateDesc.intro, StateDesc.totalIntro (totalWordsOf pd)]
    ++ pd.map (fun c => StateDesc.segment c.pos c.count (segPct pd c))
    ++ [StateDesc.reorganize, StateDesc.compare (timesHigherOf pd)]

/-- Elements the stacked-bar chart renders, with identifying data.  Labels
appended by the reorganize state start with an unset fill, which the
comparison state recolors. -/
inductive MorphElem where
  | totalBar
  | posBar (pos : String) (fill : String)
  | percentLabel (pos : String)
  | legendBox
  | yAxisGroup
  | categoryLabel (pos : String) (fill : String)
  | countLabel (pos : String) (fill : String)
  | averageLine
  | averageLabel
deriving Repr, DecidableEq

/-- The palette lookup `colors.pos[pos]` of `js/cellconfig.js`. -/
def posColorOf (p : String) : String :=
  if p = "noun" then "#4e79a7" else if p = "verb" then "#e15759"
  else if p = "adj" then "#f28e2c" else if p = "adv" then "#59a14f"
  else if p = "verbial noun" then "#76b7b2" else "#edc949"

/-- Elements the reorganize state keeps: it removes the percentage labels,
the background total bar and the legend. -/
def keepAfterReorg : MorphElem → Bool
  | .percentLabel _ => false
  | .totalBar => false
  | .legendBox => false
  | _ => true

/-- The recoloring by the comparison state: the noun bar and labels keep the
noun color, every other bar turns light grey and every other label dark
grey (the source matches labels through their text and vertical position;
both identify the part of speech). -/
def recolorHighlight : MorphElem → MorphElem
  | .posBar p _ => .posBar p (if p = "noun" then "#4e79a7" else "#e2e8f0")
  | .categoryLabel p _ => .categoryLabel p (if p = "noun" then "#4e79a7" else "#6b7280")
  | .countLabel p _ => .countLabel p (if p = "noun" then "#4e79a7" else "#6b7280")
  | e => e

/-- The element updates of `updateState(state)`: state 1 shows the total
bar; states 2 through `posData.length + 1` append the segment for
`posData[state - 2]` with its percentage label (scheduled on the grow-in
transition end) and, for the first segment, the legend; state
`posData.length + 2` reorganizes into separated labeled bars; state
`posData.length + 3` recolors for the noun comparison and adds the
average line and label.  Other states change no elements. -/
def updateBranchElems (pd : List PosCount) (es : List MorphElem) (s : Nat) :
    List MorphElem :=
  if s = 1 then es ++ [MorphElem.totalBar]
  else if 1 < s ∧ s ≤ pd.length + 1 then
    match pd[s - 2]? with
    | some c =>
        es ++ [MorphElem.posBar c.pos (posColorOf c.pos), MorphElem.percentLabel c.pos]
          ++ (if s = 2 then [MorphElem.legendBox] else [])
    | none => es
  else if s = pd.length + 2 then
    (es.filter keepAfterReorg) ++ [MorphElem.yAxisGroup]
      ++ pd.map (fun c => MorphElem.categoryLabel c.pos "")
      ++ pd.map (fun c => MorphElem.countLabel c.pos "")
  else if s = pd.length + 3 then
    es.map recolorHighlight ++ [MorphElem.averageLine, MorphElem.averageLabel]
  else es

/-- The mutable world of the chart: `currentState`, the state index whose text
the annotation shows, the rendered elements, and whether the Next button
has been disabled. -/
structure MorphWorld where
  currentState : Nat
  annotationState : Nat
  elems : List MorphElem
  buttonDisabled : Bool
deriving Repr, DecidableEq

/-- `updateState(s)`: sets the annotation to state `s`, applies the
element updates, and disables the Next button when `s` is the last state
(`state === states.length - 1`); `currentState` itself is not written by
`updateState`. -/
def applyUpdateState (pd : List PosCount) (w : MorphWorld) (s : Nat) : MorphWorld :=
  { currentState := w.currentState
    annotationState := s
    elems := updateBranchElems pd w.elems s
    buttonDisabled := if s = (morphStates pd).length - 1 then true else w.buttonDisabled }

/-- Construction ends with `updateState(0)` on a fresh world. -/
def initMorph (pd : List PosCount) : MorphWorld :=
  applyUpdateState pd
    { currentState := 0, annotationState := 0, elems := [], buttonDisabled := false } 0

/-- The Next-button click handler: only below the last state it increments
`currentState` and runs `updateState` on the new value. -/
def clickNext (pd : List PosCount) (w : MorphWorld) : MorphWorld :=
  if w.currentState < (morphStates pd).length - 1 then
    applyUpdateState pd { w with currentState := w.currentState + 1 } (w.currentState + 1)
  else w

/-- The world after construction and `n` Next clicks. -/
def morphRun (pd : List PosCount) (n : Nat) : MorphWorld :=
  (clickNext pd)^[n] (initMorph pd)

/-- The construction attempt of `createStackedBarChart` up to the noun
lookup (line 711): with no noun group, reading `.count` of the
`undefined` find result raises a TypeError before any visual mark exists
(only the empty svg container has been appended); otherwise construction
completes and `updateState(0)` leaves the initial world. -/
def stackedRenderAttempt (data : List ReviewRecord) : List MorphElem × Option JsError :=
  match (posData data).find? (fun c => decide (c.pos = "noun")) with
  | none => ([], some JsError.typeError)
  | some _ => ((initMorph (posData data)).elems, none)

/-- The part of speech of a rendered segment bar, if the element is one. -/
def posBarPos : MorphElem → Option String
  | .posBar p _ => some p
  | _ => none

/-- The order in which phase 1 reveals the composition segments: the
segment bars rendered after advancing through every segment state, in
appended order. -/
def phase1RevealOrder (data : List ReviewRecord) : List String :=
  ((morphRun (posData data) ((posData data).length + 1)).elems).filterMap posBarPos

/-- The phase-2 separated layout order: the `yScale` band domain,
`posDataDescending.map(d => d.pos)`. -/
def yScaleDomain (data : List ReviewRecord) : List String :=
  (posDataDescending data).map (fun c => c.pos)

/-! ## Incremental Reveal Machine (`js/waffleChart.js`)

Words are bucketed once at construction by first review date into weekly
windows starting at the minimum date; `showNewWords(startWeek, endWeek)`
collects the words of buckets `startWeek` up to but excluding `endWeek`
(and below the bucket count); the Next handler passes the milestone week
values around the incremented milestone index. -/

/-- One entry of the `firstReviews` map. -/
structure FirstReview where
  word : String
  date : Int
  category : String
  pos : String
  english : String
deriving Repr, DecidableEq

/-- Replace the entry of a word, or append a fresh key, preserving map
insertion order. -/
def setFirst (frs : List FirstReview) (e : FirstReview) : List FirstReview :=
  match frs with
  | [] => [e]
  | f :: rest => if f.word = e.word then e :: rest else f :: setFirst rest e

/-- The accumulator of the first-review pass: the map plus the running
date bounds. -/
structure WaffleAcc where
  firstReviews : List FirstReview
  minDate : Int
  maxDate : Int
deriving Repr, DecidableEq

/-- Sentinel initial minimum, `new Date(3000, 0)` in milliseconds. -/
def initialMinDate : Int := 32503680000000

/-- Sentinel initial maximum, `new Date(0)`. -/
def initialMaxDate : Int := 0

/-- One record of the first-review pass: the entry is written when the
word is new or the date improves, and only then are the bounds updated
(exactly as the source nests the updates inside the conditional). -/
def stepFirstReview (acc : WaffleAcc) (d : ReviewRecord) : WaffleAcc :=
  let rd := msOfSerial d.reviewDate
  let overwrite :=
    match acc.firstReviews.find? (fun f => decide (f.word = d.jpn)) with
    | none => true
    | some f => decide (rd < f.date)
  if overwrite then
    { firstReviews := setFirst acc.firstReviews
        { word := d.jpn, date := rd, category := d.category, pos := d.partOS, english := d.eng }
      minDate := if rd < acc.minDate then rd else acc.minDate
      maxDate := if rd > acc.maxDate then rd else acc.maxDate }
  else acc

/-- The accumulator after the whole `rawData.forEach` pass. -/
def waffleAccOf (data : List ReviewRecord) : WaffleAcc :=
  data.foldl stepFirstReview
    { firstReviews := [], minDate := initialMinDate, maxDate := initialMaxDate }

/-- `7 * 24 * 60 * 60 * 1000`. -/
def msPerWeek : Int := 7 * 24 * 60 * 60 * 1000

/-- Fuel-driven unfolding of the week loop: emit the current start while
it does not exceed the maximum date, stepping one week. -/
def weekStartsGo (maxD : Int) : Nat → Int → List Int
  | 0, _ => []
  | fuel + 1, cur => if cur ≤ maxD then cur :: weekStartsGo maxD fuel (cur + msPerWeek) else []

/-- The week-start timestamps of the `while (currentDate <= maxDate)`
loop: the fuel bound counts exactly its iterations (zero when the range
is empty), so the guarded unfolding reproduces the loop. -/
def weekStarts (minD maxD : Int) : List Int :=
  weekStartsGo maxD (((maxD - minD) / msPerWeek + 1).toNat) minD

/-- Words assigned to their weekly windows: the source walks the windows
and breaks at the first containing one, and the windows are disjoint, so
per window this is a filter that keeps map insertion order. -/
def bucketWords (weeks : List Int) (frs : List FirstReview) : List (List FirstReview) :=
  weeks.map (fun ws => frs.filter (fun f => decide (ws ≤ f.date) && decide (f.date < ws + msPerWeek)))

/-- The weekly buckets of a dataset. -/
def bucketsOf (data : List ReviewRecord) : List (List FirstReview) :=
  let acc := waffleAccOf data
  bucketWords (weekStarts acc.minDate acc.maxDate) acc.firstReviews

/-- Fuel-driven unfolding of the collection loop of `showNewWords`:
`for (let i = startWeek; i < endWeek && i < weeks.length; i++)`. -/
def collectGo (weeks : List (List FirstReview)) (endWeek : Nat) :
    Nat → Nat → List FirstReview
  | 0, _ => []
  | fuel + 1, i =>
    if h : i < endWeek ∧ i < weeks.length then
      weeks.get ⟨i, h.2⟩ ++ collectGo weeks endWeek fuel (i + 1)
    else []

/-- `showNewWords(startWeek, endWeek)`: the words of buckets `startWeek`
up to but excluding `endWeek`, clipped to the bucket count.  The fuel
`endWeek - startWeek` covers every iteration of the guarded loop. -/
def collectNewWords (weeks : List (List FirstReview)) (startWeek endWeek : Nat) :
    List FirstReview :=
  collectGo weeks endWeek (endWeek - startWeek) startWeek

/-- `milestoneConfig.weeks` of `js/cellconfig.js`. -/
def weeksCfg : List Nat := [0, 1, 5, 11, 14, 17, 21, 25]

/-- The batch one Next click reveals when advancing from milestone index
`m` to `m + 1`: the handler reads `weeks[m]` before incrementing and
`weeks[m + 1]` after, and passes them to `showNewWords`. -/
def advanceBatch (data : List ReviewRecord) (m : Nat) : List FirstReview :=
  collectNewWords (bucketsOf data) (weeksCfg.getD m 0) (weeksCfg.getD (m + 1) 0)

/-- Following the claim wording for C4: the entities whose weekly bucket
index lies in the half-open interval that excludes `weeks[m]` and
includes `weeks[m + 1]`. -/
def specClaimedBatch (data : List ReviewRecord) (m : Nat) : List FirstReview :=
  (((List.range (bucketsOf data).length).filter
      (fun i => decide (weeksCfg.getD m 0 < i) && decide (i ≤ weeksCfg.getD (m + 1) 0))).map
    (fun i => (bucketsOf data).getD i [])).flatten

/-! ## Cell Dispatcher (`js/main.js` with `js/imagecell.js`)

`updateVis(index, data)` clears the `#vis` container, then renders the
image or constructs the chart registered for the index, discarding any
value a chart constructor returns.  At the resource level a document is
the number of children of the container plus the number of tooltip divs
appended to `document.body`: `createHeatmap` and
`createWordPerformanceChart` append a body-level tooltip and return a
cleanup closure removing it, while `createWaffleChart` and
`createStackedBarChart` keep tooltips inside their own svg and return
nothing. -/

/-- Resource-level document state: children of the `#vis` container, and
tooltip divs attached to `document.body`. -/
structure Doc where
  visChildren : Nat
  bodyTooltips : Nat
deriving Repr, DecidableEq

/-- The teardown handle a chart constructor can return. -/
inductive TeardownHandle where
  | removeBodyTooltip
deriving Repr, DecidableEq

/-- Invoking a teardown handle: the cleanup closures remove the tooltip
their chart appended to the body. -/
def runTeardown : TeardownHandle → Doc → Doc
  | .removeBodyTooltip, d => { d with bodyTooltips := d.bodyTooltips - 1 }

/-- The four chart cells of `cellConfigs.charts`. -/
inductive ChartKind where
  | waffle
  | stackedBar
  | wordPerf
  | heatmap
deriving Repr, DecidableEq

/-- Resource effects and return value of each chart constructor:
`createHeatmap` appends its svg and a body tooltip and returns a cleanup
closure; `createWordPerformanceChart` appends its svg and a controls div
plus a body tooltip and returns a cleanup closure; the waffle and
stacked-bar constructors append their svg and return nothing. -/
def constructChart : ChartKind → Doc → Doc × Option TeardownHandle
  | .heatmap, d =>
      ({ d with visChildren := d.visChildren + 1, bodyTooltips := d.bodyTooltips + 1 },
        some TeardownHandle.removeBodyTooltip)
  | .wordPerf, d =>
      ({ d with visChildren := d.visChildren + 2, bodyTooltips := d.bodyTooltips + 1 },
        some TeardownHandle.removeBodyTooltip)
  | .waffle, d => ({ d with visChildren := d.visChildren + 1 }, none)
  | .stackedBar, d => ({ d with visChildren := d.visChildren + 1 }, none)

/-- `cellConfigs.images`. -/
def cellImages (i : Nat) : Option String :=
  List.lookup i [(0, "pic1.jpeg"), (1, "anki.png"), (2, "cat.png"), (5, "srs.png"), (8, "done.png")]

/-- `cellConfigs.charts`. -/
def cellCharts (i : Nat) : Option ChartKind :=
  List.lookup i [(3, ChartKind.waffle), (4, ChartKind.stackedBar),
    (6, ChartKind.wordPerf), (7, ChartKind.heatmap)]

/-- `createImageCell` appends one container div into `#vis`. -/
def createImageCell (d : Doc) : Doc := { d with visChildren := d.visChildren + 1 }

/-- `updateVis(index)`: clear the container, then dispatch.  The value a
chart constructor returns is discarded, exactly as in the source
(`case ...: createHeatmap(visContainer, data); break;`), so no teardown
handle is ever invoked. -/
def updateVis (i : Nat) (d : Doc) : Doc :=
  let d0 := { d with visChildren := 0 }
  match cellImages i with
  | some _ => createImageCell d0
  | none =>
    match cellCharts i with
    | some k => (constructChart k d0).1
    | none => d0

/-! ## Concrete inputs used by witnesses and counterexamples -/

/-- A one-record dataset with a noun, used by several witnesses.  Its
review timestamp falls on day 151 after the epoch of serial 25569. -/
def exOneNoun : List ReviewRecord :=
  [{ jpn := "ねこ", eng := "cat", partOS := "noun", category := "NE"
     reviewDate := 25720, reviewTime := 3, score := "good", agree := "yes" }]

/-- A one-record dataset with no noun record. -/
def exNoNoun : List ReviewRecord :=
  [{ jpn := "はしる", eng := "run", partOS := "verb", category := "AA"
     reviewDate := 25600, reviewTime := 4, score := "good", agree := "yes" }]

/-- Two distinct noun words and one verb word: the noun group counts 2,
the verb group 1. -/
def exC3 : List ReviewRecord :=
  [{ jpn := "やま", eng := "mountain", partOS := "noun", category := "NE"
     reviewDate := 25600, reviewTime := 4, score := "good", agree := "yes" },
   { jpn := "かわ", eng := "river", partOS := "noun", category := "NE"
     reviewDate := 25601, reviewTime := 5, score := "bad", agree := "no" },
   { jpn := "およぐ", eng := "swim", partOS := "verb", category := "AA"
     reviewDate := 25602, reviewTime := 6, score := "good", agree := "yes" }]

/-- Two words first reviewed eight days apart: `w0` lands in weekly bucket
0 and `w1` in weekly bucket 1. -/
def exC4 : List ReviewRecord :=
  [{ jpn := "w0", eng := "zero", partOS := "noun", category := "DL"
     reviewDate := 25569, reviewTime := 5, score := "good", agree := "yes" },
   { jpn := "w1", eng := "one", partOS := "verb", category := "DL"
     reviewDate := 25577, reviewTime := 5, score := "good", agree := "yes" }]

/-- The aggregate `processData` produces for `exOneNoun` under the filter
that selects its category. -/
def exAggregate : WordAggregate :=
  { jpn := "ねこ", eng := "cat", partOS := "noun", category := "NE"
    goodReviews := 1, badReviews := 0, firstReview := msOfSerial 25720, totalReviews := 1 }

/-- A section whose midpoint 50 sits inside the middle band of a
100-pixel viewport. -/
def secIn : StepSection := { top := 40, height := 20 }

/-- A section whose midpoint 100 sits outside that band. -/
def secOut : StepSection := { top := 80, height := 40 }

/-- A section whose midpoint is exactly one quarter of a 100-pixel
viewport. -/
def secQuarter : StepSection := { top := 0, height := 50 }

/-- Five scroll passes whose qualifying indices are 0, 0, 1, 0, 1: the
second pass keeps the already-active step 0 qualified (the
duplicate-qualification case), followed by alternating boundary
crossings. -/
def passes5 : List (List StepSection) :=
  [[secIn, secOut], [secIn, secOut], [secOut, secIn], [secIn, secOut], [secOut, secIn]]

/-! ## General lemmas about the stable comparator sort -/

theorem mem_insertSorted {α : Type} (le : α → α → Bool) (x a : α) :
    ∀ l : List α, a ∈ insertSorted le x l ↔ a = x ∨ a ∈ l := by
  intro l
  induction l with
  | nil => simp [insertSorted]
  | cons y ys ih =>
    simp only [insertSorted]
    by_cases h : le x y = true
    · simp [h, List.mem_cons]
    · simp only [if_neg h, List.mem_cons, ih]
      tauto

theorem mem_sortWith {α : Type} (le : α → α → Bool) (a : α) :
    ∀ l : List α, a ∈ sortWith le l ↔ a ∈ l := by
  intro l
  induction l with
  | nil => simp [sortWith]
  | cons x xs ih =>
    simp only [sortWith, mem_insertSorted, List.mem_cons, ih]

/-! ## Viewport Tracker lemmas -/

theorem passRun_eq_stepFold (vh : ℚ) :
    ∀ (l : List (Int × StepSection)) (cur : Int),
      passRun vh cur l
        = stepFold cur ((l.filter (fun p => qualifies vh p.2)).map (fun p => p.1)) := by
  intro l
  induction l with
  | nil => intro cur; rfl
  | cons p rest ih =>
    intro cur
    obtain ⟨i, s⟩ := p
    by_cases hq : qualifies vh s
    · rw [show ((i, s) :: rest).filter (fun p => qualifies vh p.2)
            = (i, s) :: rest.filter (fun p => qualifies vh p.2) from
          List.filter_cons_of_pos hq, List.map_cons]
      by_cases hc : cur ≠ i
      · simp only [passRun, if_pos hq, if_pos hc, stepFold, ih]
      · simp only [passRun, if_pos hq, if_neg hc, stepFold, ih]
    · rw [show ((i, s) :: rest).filter (fun p => qualifies vh p.2)
            = rest.filter (fun p => qualifies vh p.2) from
          List.filter_cons_of_neg (by simpa using hq)]
      simp only [passRun, if_neg hq, ih]

theorem stepFold_append (cur : Int) (xs ys : List Int) :
    stepFold cur (xs ++ ys)
      = ((stepFold (stepFold cur xs).1 ys).1,
          (stepFold cur xs).2 ++ (stepFold (stepFold cur xs).1 ys).2) := by
  induction xs generalizing cur with
  | nil => simp [stepFold]
  | cons i rest ih =>
    by_cases hc : cur ≠ i
    · simp only [List.cons_append, stepFold, if_pos hc, List.append_eq, ih i, List.nil_append]
    · simp only [List.cons_append, stepFold, if_neg hc, List.append_eq, ih cur]

theorem runScroll_eq_stepFold (vh : ℚ) :
    ∀ (passes : List (List StepSection)) (init : Int),
      runScroll vh init passes
        = stepFold init ((passes.map (qualifierIdxs vh)).flatten) := by
  intro passes
  induction passes with
  | nil => intro init; rfl
  | cons p ps ih =>
    intro init
    have hp : positionPass vh p init = stepFold init (qualifierIdxs vh p) :=
      passRun_eq_stepFold vh (enumInt p) init
    simp only [runScroll, List.map_cons, List.flatten_cons, stepFold_append, hp, ih]

theorem stepFold_distinct : ∀ (l : List Int) (cur : Int),
    distinctRun cur (stepFold cur l).2 = true := by
  intro l
  induction l with
  | nil => intro cur; rfl
  | cons i rest ih =>
    intro cur
    by_cases hc : cur ≠ i
    · simp only [stepFold, if_pos hc, distinctRun, Bool.and_eq_true, decide_eq_true_eq]
      exact ⟨hc, ih i⟩
    · simp only [stepFold, if_neg hc]
      exact ih cur

theorem stepFold_of_distinct : ∀ (l : List Int) (cur : Int),
    distinctRun cur l = true → (stepFold cur l).2 = l := by
  intro l
  induction l with
  | nil => intro cur _; rfl
  | cons i rest ih =>
    intro cur h
    simp only [distinctRun, Bool.and_eq_true, decide_eq_true_eq] at h
    simp only [stepFold, if_pos h.1]
    rw [ih i h.2]

theorem stepFold_snd_destutter : ∀ (l : List Int) (cur : Int),
    (stepFold cur l).2 = destutterFrom cur l := by
  intro l
  induction l with
  | nil => intro cur; rfl
  | cons i rest ih =>
    intro cur
    by_cases hc : cur ≠ i
    · simp only [stepFold, destutterFrom, if_pos hc, ih]
    · simp only [stepFold, destutterFrom, if_neg hc, ih]

/-- C6: over any sequence of scroll passes, the notifications the
Viewport Tracker fires are exactly the de-stuttering of the
qualifying-index trace: a step that qualifies while its index is already
the recorded one fires nothing (that entry is dropped), every fired
notification differs from the index recorded just before it, and when
the trace consists of N distinct transitions (crossing the same boundary
back and forth N times) exactly N notifications fire, never 2N. -/
theorem c6_scroll_no_duplicate_notifications (vh : ℚ) (passes : List (List StepSection))
    (init : Int) :
    (runScroll vh init passes).2
        = destutterFrom init ((passes.map (qualifierIdxs vh)).flatten)
    ∧ distinctRun init ((runScroll vh init passes).2) = true
    ∧ (distinctRun init ((passes.map (qualifierIdxs vh)).flatten) = true →
        (runScroll vh init passes).2 = (passes.map (qualifierIdxs vh)).flatten) := by
  have he := runScroll_eq_stepFold vh passes init
  refine ⟨?_, ?_, ?_⟩
  · rw [he]
    exact stepFold_snd_destutter _ _
  · rw [he]
    exact stepFold_distinct _ _
  · intro h
    rw [he]
    exact stepFold_of_distinct _ _ h

theorem qualifiesSecIn : qualifies 100 secIn = true := by
  simp only [qualifies, midPoint, secIn, Bool.and_eq_true, decide_eq_true_eq]
  norm_num

theorem qualifiesSecOut : qualifies 100 secOut = false := by
  simp only [qualifies, midPoint, secOut]
  norm_num

theorem qualifiesSecQuarter : qualifies 100 secQuarter = false := by
  simp only [qualifies, midPoint, secQuarter]
  norm_num

theorem qualifierIdxsInOut : qualifierIdxs 100 [secIn, secOut] = [0] := by
  show ((([((0 : Int), secIn), ((1 : Int), secOut)]).filter
      (fun p => qualifies 100 p.2)).map (fun p => p.1)) = [0]
  simp [List.filter, qualifiesSecIn, qualifiesSecOut]

theorem qualifierIdxsOutIn : qualifierIdxs 100 [secOut, secIn] = [1] := by
  show ((([((0 : Int), secOut), ((1 : Int), secIn)]).filter
      (fun p => qualifies 100 p.2)).map (fun p => p.1)) = [1]
  simp [List.filter, qualifiesSecIn, qualifiesSecOut]

/-- Witness for C6: five passes whose qualifying trace is 0, 0, 1, 0, 1.
The second qualification of the already-active step 0 fires nothing, and
the four distinct transitions fire exactly four notifications: five
qualifications, four notifications, each differing from the index
recorded before it. -/
theorem c6_witness :
    (passes5.map (qualifierIdxs 100)).flatten = [0, 0, 1, 0, 1]
    ∧ (runScroll 100 (-1) passes5).2 = [0, 1, 0, 1]
    ∧ distinctRun (-1) ((runScroll 100 (-1) passes5).2) = true := by
  have hflat : (passes5.map (qualifierIdxs 100)).flatten = [0, 0, 1, 0, 1] := by
    simp [passes5, qualifierIdxsInOut, qualifierIdxsOutIn]
  have h := c6_scroll_no_duplicate_notifications 100 passes5 (-1)
  refine ⟨hflat, ?_, h.2.1⟩
  rw [h.1, hflat]
  decide

theorem qualifies_iff (vh : ℚ) (s : StepSection) :
    qualifies vh s = true
      ↔ (vh * (25 / 100) < midPoint s ∧ midPoint s < vh * (75 / 100)) := by
  simp [qualifies, gt_iff_lt]

theorem positionPass_singleton (vh : ℚ) (s : StepSection) (cur : Int) :
    (positionPass vh [s] cur).2
      = if qualifies vh s = true ∧ cur ≠ (0 : Int) then [0] else [] := by
  show (passRun vh cur [((0 : Int), s)]).2 = _
  by_cases hq : qualifies vh s
  · by_cases hc : cur ≠ (0 : Int)
    · simp [passRun, hq, hc]
    · simp [passRun, hq, hc]
  · simp [passRun, hq]

/-- C7 (amended): on a scroll pass the single step fires as active exactly
when its midpoint lies strictly inside the open interval between 25
percent and 75 percent of viewport height (endpoints excluded) and its
index is not the recorded one. -/
theorem c7_active_band_open_interval (vh : ℚ) (s : StepSection) (cur : Int) :
    (positionPass vh [s] cur).2 = [0] ↔
      ((vh * (25 / 100) < midPoint s ∧ midPoint s < vh * (75 / 100)) ∧ cur ≠ (0 : Int)) := by
  rw [positionPass_singleton, ← qualifies_iff vh s]
  by_cases hq : qualifies vh s = true
  · by_cases hc : cur ≠ (0 : Int)
    · simp [hq, hc]
    · simp [hq, hc]
  · simp [hq]

/-- Counterexample for C7: a step whose midpoint is exactly one quarter of
the viewport height satisfies the closed-interval condition the claim
states, yet the code does not qualify it and no pass fires it. -/
theorem c7_counterexample_midpoint_at_quarter :
    specActiveClosed 100 secQuarter
    ∧ qualifies 100 secQuarter = false
    ∧ (positionPass 100 [secQuarter] (-1)).2 = [] := by
  refine ⟨?_, qualifiesSecQuarter, ?_⟩
  · constructor <;> (simp only [specActiveClosed, midPoint, secQuarter]; norm_num)
  · rw [positionPass_singleton]
    simp [qualifiesSecQuarter]

/-! ## Word-performance aggregation lemmas -/

theorem bumpStat_total (st : WordStat) (sc : String) :
    (bumpStat st sc).goodReviews + (bumpStat st sc).badReviews
      = st.goodReviews + st.badReviews + 1 := by
  unfold bumpStat
  split <;> (dsimp only []; omega)

theorem insertReview_total :
    ∀ (l : List WordStat) (d : ReviewRecord),
      (∀ t ∈ l, 1 ≤ t.goodReviews + t.badReviews) →
      ∀ s ∈ insertReview l d, 1 ≤ s.goodReviews + s.badReviews := by
  intro l
  induction l with
  | nil =>
    intro d _ s hs
    simp only [insertReview, List.mem_singleton] at hs
    subst hs
    rw [bumpStat_total]
    omega
  | cons t rest ih =>
    intro d h s hs
    simp only [insertReview] at hs
    by_cases ht : t.jpn = d.jpn
    · rw [if_pos ht] at hs
      rcases List.mem_cons.mp hs with rfl | hmem
      · rw [bumpStat_total]
        omega
      · exact h s (List.mem_cons_of_mem t hmem)
    · rw [if_neg ht] at hs
      rcases List.mem_cons.mp hs with rfl | hmem
      · exact h s (List.mem_cons_self s rest)
      · exact ih d (fun u hu => h u (List.mem_cons_of_mem t hu)) s hmem

theorem processStats_total (cats : List String) :
    ∀ (data : List ReviewRecord) (acc : List WordStat),
      (∀ t ∈ acc, 1 ≤ t.goodReviews + t.badReviews) →
      ∀ s ∈ data.foldl
          (fun acc d => if d.category ∈ cats then insertReview acc d else acc) acc,
        1 ≤ s.goodReviews + s.badReviews := by
  intro data
  induction data with
  | nil => intro acc h s hs; exact h s hs
  | cons d rest ih =>
    intro acc h s hs
    rw [List.foldl_cons] at hs
    by_cases hd : d.category ∈ cats
    · rw [if_pos hd] at hs
      exact ih (insertReview acc d) (insertReview_total acc d h) s hs
    · rw [if_neg hd] at hs
      exact ih acc h s hs

/-- C5: every aggregate `processData` produces, for any dataset and any
active category filter, carries at least one counted review, so its
success rate is a well-defined rational in the interval from 0 to 100:
the degenerate zero-review case never reaches the sort comparator, and no
aggregate with an undefined (NaN) rate exists. -/
theorem c5_success_rate_well_defined (data : List ReviewRecord) (cats : List String)
    (agg : WordAggregate) (h : agg ∈ processData cats data) :
    1 ≤ agg.goodReviews + agg.badReviews
    ∧ 0 ≤ agg.successRate ∧ agg.successRate ≤ 100 := by
  have h1 : agg ∈ (processStats cats data).map mkAggregate :=
    (mem_sortWith _ _ _).mp h
  obtain ⟨st, hst, rfl⟩ := List.mem_map.mp h1
  have htot : 1 ≤ st.goodReviews + st.badReviews := by
    have := processStats_total cats data [] (by intro t ht; cases ht) st
    exact this hst
  have hagg : (mkAggregate st).goodReviews = st.goodReviews ∧
      (mkAggregate st).badReviews = st.badReviews := ⟨rfl, rfl⟩
  refine ⟨by rw [hagg.1, hagg.2]; exact htot, ?_, ?_⟩
  all_goals
    rw [show (mkAggregate st).successRate
        = (st.goodReviews : ℚ) / ((st.goodReviews : ℚ) + (st.badReviews : ℚ)) * 100 from rfl]
  all_goals
    have hpos : (0 : ℚ) < (st.goodReviews : ℚ) + (st.badReviews : ℚ) := by
      have h1 : (1 : ℚ) ≤ ((st.goodReviews + st.badReviews : ℕ) : ℚ) := by
        exact_mod_cast htot
      push_cast at h1
      linarith
  · have hnum : (0 : ℚ) ≤ (st.goodReviews : ℚ) := Nat.cast_nonneg _
    positivity
  · have hle : (st.goodReviews : ℚ) ≤ (st.goodReviews : ℚ) + (st.badReviews : ℚ) :=
      le_add_of_nonneg_right (Nat.cast_nonneg _)
    have hdiv : (st.goodReviews : ℚ) / ((st.goodReviews : ℚ) + (st.badReviews : ℚ)) ≤ 1 :=
      (div_le_one hpos).mpr hle
    calc (st.goodReviews : ℚ) / ((st.goodReviews : ℚ) + (st.badReviews : ℚ)) * 100
        ≤ 1 * 100 := by
          exact mul_le_mul_of_nonneg_right hdiv (by norm_num)
      _ = 100 := by norm_num

/-- Witness for C5 at a concrete dataset and filter. -/
theorem c5_witness :
    1 ≤ exAggregate.goodReviews + exAggregate.badReviews
    ∧ 0 ≤ exAggregate.successRate ∧ exAggregate.successRate ≤ 100 :=
  c5_success_rate_well_defined exOneNoun ["NE"] exAggregate (by decide)

/-! ## Multi-Phase Morph Machine lemmas -/

theorem morphStates_length (pd : List PosCount) :
    (morphStates pd).length = pd.length + 4 := by
  simp [morphStates]

theorem clickNext_at_terminal (pd : List PosCount) (w : MorphWorld)
    (h : w.currentState = (morphStates pd).length - 1) : clickNext pd w = w := by
  unfold clickNext
  rw [h, if_neg (lt_irrefl _)]

theorem morphRun_succ (pd : List PosCount) (n : Nat) :
    morphRun pd (n + 1) = clickNext pd (morphRun pd n) :=
  Function.iterate_succ_apply' (clickNext pd) n (initMorph pd)

theorem morphRun_disabled (pd : List PosCount) :
    ∀ n : Nat, (morphRun pd n).currentState = (morphStates pd).length - 1 →
      (morphRun pd n).buttonDisabled = true := by
  intro n
  induction n with
  | zero =>
    intro h
    have hcs : (morphRun pd 0).currentState = 0 := rfl
    rw [hcs, morphStates_length] at h
    omega
  | succ n ih =>
    intro h
    rw [morphRun_succ] at h ⊢
    unfold clickNext at h ⊢
    by_cases hlt : (morphRun pd n).currentState < (morphStates pd).length - 1
    · rw [if_pos hlt] at h ⊢
      have hcs : (applyUpdateState pd
          { morphRun pd n with currentState := (morphRun pd n).currentState + 1 }
          ((morphRun pd n).currentState + 1)).currentState
          = (morphRun pd n).currentState + 1 := rfl
      rw [hcs] at h
      show (if (morphRun pd n).currentState + 1 = (morphStates pd).length - 1 then true
        else ({ morphRun pd n with
          currentState := (morphRun pd n).currentState + 1 } : MorphWorld).buttonDisabled) = true
      rw [if_pos h]
    · rw [if_neg hlt] at h ⊢
      exact ih h

/-- C9: once the Morph Machine has reached the last entry of its state
list, every further Next click leaves the whole world (phase index,
annotation state, rendered elements) unchanged, for any number of
repeated clicks, and the Next control is disabled. -/
theorem c9_terminal_phase_idempotent (data : List ReviewRecord) (n m : Nat)
    (h : (morphRun (posData data) n).currentState
        = (morphStates (posData data)).length - 1) :
    morphRun (posData data) (n + m) = morphRun (posData data) n
    ∧ (morphRun (posData data) n).buttonDisabled = true := by
  constructor
  · have hfix : clickNext (posData data) (morphRun (posData data) n)
        = morphRun (posData data) n := clickNext_at_terminal _ _ h
    show (clickNext (posData data))^[n + m] (initMorph (posData data)) = _
    rw [Nat.add_comm, Function.iterate_add_apply]
    exact Function.iterate_fixed hfix m
  · exact morphRun_disabled (posData data) n h

/-- Witness for C9: on a one-noun dataset the machine reaches its terminal
state after four clicks; two further clicks change nothing and the button
is disabled. -/
theorem c9_witness :
    morphRun (posData exOneNoun) (4 + 2) = morphRun (posData exOneNoun) 4
    ∧ (morphRun (posData exOneNoun) 4).buttonDisabled = true :=
  c9_terminal_phase_idempotent exOneNoun 4 2 (by decide)

/-! ## Part-of-speech grouping lemmas -/

theorem insertGroup_keys (gs : List (String × List ReviewRecord)) (d : ReviewRecord)
    (p : String) :
    (∃ g ∈ insertGroup gs d, g.1 = p) ↔ (∃ g ∈ gs, g.1 = p) ∨ d.partOS = p := by
  induction gs with
  | nil =>
    simp [insertGroup]
  | cons g rest ih =>
    by_cases hg : g.1 = d.partOS
    · simp only [insertGroup, if_pos hg, List.mem_cons]
      constructor
      · rintro ⟨x, hx | hx, hxp⟩
        · left
          exact ⟨g, Or.inl rfl, by rw [hx] at hxp; exact hxp⟩
        · exact Or.inl ⟨x, Or.inr hx, hxp⟩
      · rintro (⟨x, hx | hx, hxp⟩ | hp)
        · exact ⟨(g.1, g.2 ++ [d]), Or.inl rfl, by rw [hx] at hxp; exact hxp⟩
        · exact ⟨x, Or.inr hx, hxp⟩
        · exact ⟨(g.1, g.2 ++ [d]), Or.inl rfl, by rw [hg]; exact hp⟩
    · simp only [insertGroup, if_neg hg, List.mem_cons]
      constructor
      · rintro ⟨x, hx | hx, hxp⟩
        · exact Or.inl ⟨x, Or.inl hx, hxp⟩
        · rcases ih.mp ⟨x, hx, hxp⟩ with ⟨y, hy, hyp⟩ | hp
          · exact Or.inl ⟨y, Or.inr hy, hyp⟩
          · exact Or.inr hp
      · rintro (⟨x, hx | hx, hxp⟩ | hp)
        · exact ⟨x, Or.inl hx, hxp⟩
        · rcases ih.mpr (Or.inl ⟨x, hx, hxp⟩) with ⟨y, hy, hyp⟩
          exact ⟨y, Or.inr hy, hyp⟩
        · rcases ih.mpr (Or.inr hp) with ⟨y, hy, hyp⟩
          exact ⟨y, Or.inr hy, hyp⟩

theorem groupByPos_keys_aux (p : String) :
    ∀ (data : List ReviewRecord) (acc : List (String × List ReviewRecord)),
      (∃ g ∈ data.foldl insertGroup acc, g.1 = p)
        ↔ (∃ g ∈ acc, g.1 = p) ∨ ∃ d ∈ data, d.partOS = p := by
  intro data
  induction data with
  | nil => intro acc; simp
  | cons d rest ih =>
    intro acc
    rw [List.foldl_cons, ih (insertGroup acc d), insertGroup_keys]
    simp only [List.mem_cons]
    constructor
    · rintro ((hacc | hd) | ⟨x, hx, hxp⟩)
      · exact Or.inl hacc
      · exact Or.inr ⟨d, Or.inl rfl, hd⟩
      · exact Or.inr ⟨x, Or.inr hx, hxp⟩
    · rintro (hacc | ⟨x, hx | hx, hxp⟩)
      · exact Or.inl (Or.inl hacc)
      · exact Or.inl (Or.inr (by rw [← hx]; exact hxp))
      · exact Or.inr ⟨x, hx, hxp⟩

theorem posData_keys (data : List ReviewRecord) (p : String) :
    (∃ c ∈ posData data, c.pos = p) ↔ ∃ d ∈ data, d.partOS = p := by
  constructor
  · rintro ⟨c, hc, hcp⟩
    have h1 : c ∈ posDataFirstSort data := (mem_sortWith _ _ _).mp hc
    have h2 : c ∈ (groupByPos data).map mkPosCount := (mem_sortWith _ _ _).mp h1
    obtain ⟨g, hg, rfl⟩ := List.mem_map.mp h2
    rcases (groupByPos_keys_aux p data []).mp ⟨g, hg, hcp⟩ with ⟨x, hx, -⟩ | hd
    · cases hx
    · exact hd
  · intro h
    obtain ⟨g, hg, hgp⟩ := (groupByPos_keys_aux p data []).mpr (Or.inr h)
    exact ⟨mkPosCount g, (mem_sortWith _ _ _).mpr ((mem_sortWith _ _ _).mpr
      (List.mem_map_of_mem mkPosCount hg)), hgp⟩

/-- C10: `createStackedBarChart` throws before rendering any visual mark
exactly when the dataset has no record whose part of speech is `noun`
(the `posData.find` result is then `undefined` and reading its `count`
raises a TypeError), and the `nounCount` lookup succeeds exactly when
such a record exists. -/
theorem c10_noun_lookup_required (data : List ReviewRecord) :
    (stackedRenderAttempt data = ([], some JsError.typeError)
        ↔ ∀ d ∈ data, d.partOS ≠ "noun")
    ∧ ((nounLookup data).isSome = true ↔ ∃ d ∈ data, d.partOS = "noun") := by
  have hfind : ((posData data).find? (fun c => decide (c.pos = "noun"))).isSome = true
      ↔ ∃ d ∈ data, d.partOS = "noun" := by
    rw [List.find?_isSome]
    simp only [decide_eq_true_eq]
    exact posData_keys data "noun"
  constructor
  · constructor
    · intro h d hd hnoun
      have hsome : ((posData data).find? (fun c => decide (c.pos = "noun"))).isSome = true :=
        hfind.mpr ⟨d, hd, hnoun⟩
      obtain ⟨c, hc⟩ := Option.isSome_iff_exists.mp hsome
      unfold stackedRenderAttempt at h
      rw [hc] at h
      exact Option.noConfusion (congrArg Prod.snd h)
    · intro h
      have hnone : (posData data).find? (fun c => decide (c.pos = "noun")) = none := by
        rw [List.find?_eq_none]
        intro c hc
        simp only [decide_eq_true_eq]
        intro hcp
        obtain ⟨d, hd, hdp⟩ := (posData_keys data "noun").mp ⟨c, hc, hcp⟩
        exact h d hd hdp
      unfold stackedRenderAttempt
      rw [hnone]
  · rw [← hfind]
    unfold nounLookup
    cases (posData data).find? (fun c => decide (c.pos = "noun")) <;> simp

/-- Witness for C10: a noun-free dataset aborts with a TypeError and no
marks; a dataset with a noun record passes the lookup. -/
theorem c10_witness :
    stackedRenderAttempt exNoNoun = ([], some JsError.typeError)
    ∧ (nounLookup exOneNoun).isSome = true := by
  constructor
  · exact (c10_noun_lookup_required exNoNoun).1.mpr (by decide)
  · exact (c10_noun_lookup_required exOneNoun).2.mpr (by decide)

/-! ## Incremental Reveal Machine lemmas -/

theorem collectGo_mem (weeks : List (List FirstReview)) (e : Nat) (w : FirstReview) :
    ∀ (fuel i : Nat), e ≤ i + fuel →
      (w ∈ collectGo weeks e fuel i ↔ ∃ j, i ≤ j ∧ j < e ∧ w ∈ weeks.getD j []) := by
  intro fuel
  induction fuel with
  | zero =>
    intro i hb
    simp only [collectGo, List.not_mem_nil, false_iff]
    rintro ⟨j, h1, h2, -⟩
    omega
  | succ fuel ih =>
    intro i hb
    by_cases h : i < e ∧ i < weeks.length
    · rw [show collectGo weeks e (fuel + 1) i
          = weeks.get ⟨i, h.2⟩ ++ collectGo weeks e fuel (i + 1) from by
        simp only [collectGo, dif_pos h]]
      rw [List.mem_append, ih (i + 1) (by omega)]
      constructor
      · rintro (hw | ⟨j, h1, h2, hw⟩)
        · refine ⟨i, le_refl i, h.1, ?_⟩
          rw [List.getD_eq_getElem?_getD, List.getElem?_eq_getElem h.2]
          simpa using hw
        · exact ⟨j, by omega, h2, hw⟩
      · rintro ⟨j, h1, h2, hw⟩
        by_cases hij : j = i
        · subst hij
          left
          rw [List.getD_eq_getElem?_getD, List.getElem?_eq_getElem h.2] at hw
          simpa using hw
        · exact Or.inr ⟨j, by omega, h2, hw⟩
    · rw [show collectGo weeks e (fuel + 1) i = [] from by
        simp only [collectGo, dif_neg h]]
      simp only [List.not_mem_nil, false_iff]
      rintro ⟨j, h1, h2, hw⟩
      rcases Nat.lt_or_ge i e with hie | hie
      · have hlen : weeks.length ≤ i := by omega
        rw [List.getD_eq_default _ _ (by omega)] at hw
        cases hw
      · omega

theorem collectNewWords_mem (weeks : List (List FirstReview)) (s e : Nat) (w : FirstReview) :
    w ∈ collectNewWords weeks s e ↔ ∃ j, s ≤ j ∧ j < e ∧ w ∈ weeks.getD j [] :=
  collectGo_mem weeks e w (e - s) s (by omega)

/-- C4 (amended): the batch revealed when advancing from milestone index m
to m + 1 is exactly the set of entities whose weekly bucket index lies in
the half-open interval that includes the week of milestone m and excludes
the week of milestone m + 1 (clipped to the existing buckets). -/
theorem c4_reveal_batch_half_open (data : List ReviewRecord) (m : Nat) (w : FirstReview) :
    w ∈ advanceBatch data m ↔
      ∃ i, weeksCfg.getD m 0 ≤ i ∧ i < weeksCfg.getD (m + 1) 0
        ∧ w ∈ (bucketsOf data).getD i [] :=
  collectNewWords_mem (bucketsOf data) (weeksCfg.getD m 0) (weeksCfg.getD (m + 1) 0) w

/-- Counterexample for C4: on the two-word dataset the first advance
(milestone 0 to 1, weeks 0 to 1) reveals exactly the bucket-0 word, while
the batch the claim describes (bucket indices in the interval excluding
week 0 and including week 1) is exactly the bucket-1 word. -/
theorem c4_counterexample_first_advance :
    (advanceBatch exC4 0).map (fun f => f.word) = ["w0"]
    ∧ (specClaimedBatch exC4 0).map (fun f => f.word) = ["w1"]
    ∧ advanceBatch exC4 0 ≠ specClaimedBatch exC4 0 := by decide

/-! ## Drill-down detail view theorems -/

theorem noBar_of_base (hs : List Nat) (e : DetailElem)
    (he : e ∈ (DetailElem.xAxisLine :: hs.map DetailElem.hourLabel)
        ++ [DetailElem.yAxisGroup]) :
    e.isBar = false := by
  simp only [List.cons_append, List.mem_cons, List.mem_append, List.mem_map,
    List.not_mem_nil, or_false] at he
  rcases he with rfl | ⟨h, -, rfl⟩ | rfl <;> rfl

/-- C1: in either count-based detail mode the shadowed color constant
raises a ReferenceError, the rendered elements contain no bar, and for a
day cell with a nonzero review count the click handler renders the detail
view in the default count-based mode and therefore reaches that error. -/
theorem c1_count_mode_reference_error (wr : List WordReview) (dsel : Int) (vt : ViewType)
    (count : Nat) (hvt : vt = ViewType.goodbad ∨ vt = ViewType.agreement)
    (hc : 0 < count) :
    (renderWordPerformance wr dsel vt).error = some JsError.referenceError
    ∧ (∀ e ∈ (renderWordPerformance wr dsel vt).elems, e.isBar = false)
    ∧ dayCellClick wr count dsel = some (renderWordPerformance wr dsel ViewType.goodbad) := by
  refine ⟨?_, ?_, ?_⟩
  · rcases hvt with rfl | rfl <;> rfl
  · rcases hvt with rfl | rfl <;> exact fun e he => noBar_of_base _ e he
  · simp only [dayCellClick, gt_iff_lt, if_pos hc]

/-- Witness for C1 at a concrete one-review day. -/
theorem c1_witness :
    (renderWordPerformance (wordReviewsOf exOneNoun) 151 ViewType.goodbad).error
        = some JsError.referenceError
    ∧ (∀ e ∈ (renderWordPerformance (wordReviewsOf exOneNoun) 151 ViewType.goodbad).elems,
        e.isBar = false)
    ∧ dayCellClick (wordReviewsOf exOneNoun) 1 151
        = some (renderWordPerformance (wordReviewsOf exOneNoun) 151 ViewType.goodbad) :=
  c1_count_mode_reference_error (wordReviewsOf exOneNoun) 151 ViewType.goodbad 1
    (Or.inl rfl) (by decide)

/-- C8: the drill-down round trip the claim describes cannot execute: on a
dataset whose one day cell is clickable (count 1), entering the detail
view raises the ReferenceError before the mode toggle and the reset
control are ever created, so no mode cycling or reset press can follow. -/
theorem c8_round_trip_unreachable :
    reviewCountOn exOneNoun 151 = 1
    ∧ (renderWordPerformance (wordReviewsOf exOneNoun) 151 ViewType.goodbad).error
        = some JsError.referenceError
    ∧ DetailElem.toggleButton
        ∉ (renderWordPerformance (wordReviewsOf exOneNoun) 151 ViewType.goodbad).elems
    ∧ DetailElem.resetButton
        ∉ (renderWordPerformance (wordReviewsOf exOneNoun) 151 ViewType.goodbad).elems := by
  decide

/-! ## Morph Machine sort-order evaluation -/

/-- C3 (code evaluation at the failing input): the ascending sort of line
689 orders the lower-count verb group first, but the in-place descending
sort of line 697 reorders the same array, so phase 1 reveals segments in
descending order (noun before verb) and the phase-2 separated layout uses
the same descending order, contradicting the claimed ascending phase-1
order. -/
theorem c3_phase_orders_both_descending :
    (posDataFirstSort exC3).map (fun c => c.pos) = ["verb", "noun"]
    ∧ (posData exC3).map (fun c => c.pos) = ["noun", "verb"]
    ∧ phase1RevealOrder exC3 = ["noun", "verb"]
    ∧ yScaleDomain exC3 = ["noun", "verb"] := by decide

/-! ## Cell Dispatcher theorems -/

/-- Counterexample for C2: switching from the heatmap cell (step 7) to the
waffle cell (step 3) leaves the body-level tooltip of the heatmap in the
document (count 1, not 0), and the waffle constructor returns no teardown
handle at all. -/
theorem c2_counterexample_tooltip_survives :
    (updateVis 3 (updateVis 7 { visChildren := 0, bodyTooltips := 0 })).bodyTooltips = 1
    ∧ (constructChart ChartKind.waffle { visChildren := 0, bodyTooltips := 0 }).2 = none := by
  decide

/-- C2 (amended): only the heatmap and word-performance constructors
return teardown handles (which do remove their body tooltip when
invoked); the waffle and stacked-bar constructors return none, and the
dispatcher discards every returned handle, so body-level tooltips never
decrease across `show` calls and leak across cell switches. -/
theorem c2_teardown_returned_but_never_invoked (d : Doc) :
    (constructChart ChartKind.heatmap d).2 = some TeardownHandle.removeBodyTooltip
    ∧ (constructChart ChartKind.wordPerf d).2 = some TeardownHandle.removeBodyTooltip
    ∧ (constructChart ChartKind.waffle d).2 = none
    ∧ (constructChart ChartKind.stackedBar d).2 = none
    ∧ (runTeardown TeardownHandle.removeBodyTooltip
        (constructChart ChartKind.heatmap d).1).bodyTooltips = d.bodyTooltips
    ∧ ∀ i : Nat, d.bodyTooltips ≤ (updateVis i d).bodyTooltips := by
  refine ⟨rfl, rfl, rfl, rfl, ?_, ?_⟩
  · simp [runTeardown, constructChart]
  · intro i
    unfold updateVis
    cases h1 : cellImages i with
    | some s => simp [createImageCell]
    | none =>
      cases h2 : cellCharts i with
      | some k => cases k <;> simp [constructChart]
      | none => simp

end VisProj
